import Mathlib

/-!
Verification of the STL copy tool (`src/folder_copy.py`).

The engine under verification is the discovery / analysis / copy core of
`folder_copy.py`.  Python values are shallowly embedded:

* a filename is a `String`; `str.lower()` is `String.toLower` (all fixed
  keywords are ASCII, where the two agree);
* the Python substring test `needle in hay` is `strContains hay needle`;
* `os.path.getsize` is recorded per file as `stat : Option Nat`
  (`none` = the call raised `OSError`);
* `os.walk` of one selected folder is recorded as `WalkOutcome`: either the
  full list of `(root, dirs, files)` triples, or the prefix of triples
  processed before an `OSError` escaped the walk loop;
* the outcomes of the per-file `os.makedirs`/`shutil.copy2` calls of the copy
  pass are recorded as the Booleans `mkdirOk`/`copyOk` of the file entry
  (the filesystem is assumed unchanged between the scan pass and the copy
  pass, exactly as the Python code assumes);
* machine integers do not overflow here (Python ints are unbounded), so sizes
  and counters are `Nat`; `format_size` takes an `Int` because its argument is
  only ever compared with 0 before use.
-/

/-- Python's `needle in hay` substring test on strings. -/
def strContains (hay needle : String) : Bool :=
  (List.range (hay.data.length + 1)).any fun i => needle.data.isPrefixOf (hay.data.drop i)

/-- Python's `str.lower()` (the fixed keywords are ASCII, where the two agree). -/
def toLowerStr (s : String) : String := ⟨s.data.map Char.toLower⟩

/-- Python's `str.upper()`. -/
def toUpperStr (s : String) : String := ⟨s.data.map Char.toUpper⟩

/-- Python's `str.endswith(sfx)`. -/
def strEndsWith (s sfx : String) : Bool := sfx.data.isSuffixOf s.data

/-- Python's `str.startswith(pfx)`. -/
def strStartsWith (s pfx : String) : Bool := pfx.data.isPrefixOf s.data

/-! ### Configuration constants (lines 10-27 of `folder_copy.py`) -/

def EXOCAD_SOURCE_PATH : String := "\\\\Skdla-sa-nas01\\skdla-sa\\CAD-Data -- Exocad"

def MODEL_BASE_PATH : String := "\\\\KDC-LABSERVER\\CadCam\\! INHOUSE PRINTING !\\.MODELS"

def TISSUE_BASE_PATH : String := "\\\\KDC-LABSERVER\\CadCam\\! INHOUSE PRINTING !\\TISSUE"

def INHOUSE_PRINTING_PATH : String := "\\\\KDC-LABSERVER\\CadCam\\! INHOUSE PRINTING !"

def EXOCAD_ALLOWED_KEYWORDS : List String := ["modelbase", "model", "tissue", "gingiva"]

def EXOCAD_TISSUE_KEYWORDS : List String := ["modelgingiva", "tissue", "gingiva"]

def MODEL_DISPLAY_SIZE_KEYWORDS : List String := ["model", "antag", "tooth", "teeth", "die", "modelbase"]

/-! ### Filesystem snapshot model -/

/-- One regular file as the engine observes it: its (base)name, the outcome of
`os.path.getsize` on it (`none` = `OSError`), and the outcomes of the
`os.makedirs` / `shutil.copy2` calls the copy pass would issue for it. -/
structure FileEntry where
  name : String
  stat : Option Nat
  mkdirOk : Bool
  copyOk : Bool
deriving DecidableEq

/-- One `(root, dirs, files)` triple yielded by `os.walk`; only the number of
subdirectories matters (it feeds `items_in_this_folder`). -/
structure WalkDir where
  numDirs : Nat
  files : List FileEntry
deriving DecidableEq

/-- Outcome of iterating `os.walk(folder_path)`: all triples, or the prefix of
triples fully processed before an `OSError` escaped into the `except` clause. -/
inductive WalkOutcome where
  | ok (entries : List WalkDir)
  | err (processed : List WalkDir)
deriving DecidableEq

/-- A selected source folder: its path, the origin label it was found under,
whether `os.path.isdir` holds for it, and its walk outcome. -/
structure SrcFolder where
  path : String
  origin : String
  isDir : Bool
  walk : WalkOutcome
deriving DecidableEq

def walkedEntries (sf : SrcFolder) : List WalkDir :=
  match sf.walk with
  | .ok es => es
  | .err es => es

def walkOk (sf : SrcFolder) : Bool :=
  match sf.walk with
  | .ok _ => true
  | .err _ => false

/-- All files yielded by the walk of `sf`, in order. -/
def walkFiles (sf : SrcFolder) : List FileEntry :=
  ((walkedEntries sf).map WalkDir.files).flatten

/-! ### Path classifier (inline expressions of the source, shared) -/

/-- `origin_label == "Exocad" and EXOCAD_SOURCE_PATH and folder_path.startswith(EXOCAD_SOURCE_PATH)`
(lines 88, 213, 233; `EXOCAD_SOURCE_PATH` is truthy iff nonempty). -/
def is_exocad_origin (origin_label folder_path : String) : Bool :=
  origin_label == "Exocad" && !(EXOCAD_SOURCE_PATH == "") && strStartsWith folder_path EXOCAD_SOURCE_PATH

/-- The filter a file must pass to be copied: `.stl` extension (case-insensitive)
and, for an Exocad-origin folder, at least one allow-list keyword in the name
(lines 103-112 / 219-222 / 238-242). -/
def copy_filter (isExo : Bool) (f : FileEntry) : Bool :=
  strEndsWith (toLowerStr f.name) ".stl" &&
    !(isExo && !(EXOCAD_ALLOWED_KEYWORDS.any fun kw => strContains (toLowerStr f.name) kw))

/-- Tissue classification of a (filtered) STL file name, lines 118-123 / 244-246. -/
def is_tissue_file (isExo : Bool) (fl : String) : Bool :=
  if isExo && (EXOCAD_TISSUE_KEYWORDS.any fun kw => strContains fl kw) then true
  else if !isExo && (strContains fl "tissue" || strContains fl "gingiva") then true
  else false

/-! ### Analysis engine: `get_recursive_folder_details` (lines 73-141) -/

/-- The loop state of `get_recursive_folder_details`. -/
structure AnalysisAcc where
  total_copy_size_bytes : Nat := 0
  display_model_size_bytes : Nat := 0
  non_stl_found : Bool := false
  tissue_files_present : Bool := false
  empty_folders_encountered : List String := []
deriving DecidableEq

/-- Body of the `for file in files` loop, lines 97-132. -/
def processFile (isExo : Bool) (acc : AnalysisAcc) (f : FileEntry) : AnalysisAcc :=
  let fl := toLowerStr f.name
  match f.stat with
  | none => acc
  | some size =>
    if !(strEndsWith fl ".stl") then { acc with non_stl_found := true }
    else if isExo && !(EXOCAD_ALLOWED_KEYWORDS.any fun kw => strContains fl kw) then acc
    else
      let acc1 := { acc with total_copy_size_bytes := acc.total_copy_size_bytes + size }
      if is_tissue_file isExo fl then { acc1 with tissue_files_present := true }
      else if MODEL_DISPLAY_SIZE_KEYWORDS.any fun kw => strContains fl kw then
        { acc1 with display_model_size_bytes := acc1.display_model_size_bytes + size }
      else acc1

/-- `items_in_this_folder` accumulated over the walk, line 96. -/
def itemsInFolder (es : List WalkDir) : Nat :=
  es.foldl (fun n wd => n + wd.numDirs + wd.files.length) 0

/-- Body of the `for folder_path, origin_label in ...` loop, lines 86-138. -/
def processFolder (acc : AnalysisAcc) (sf : SrcFolder) : AnalysisAcc :=
  let isExo := is_exocad_origin sf.origin sf.path
  if !sf.isDir then
    { acc with empty_folders_encountered := acc.empty_folders_encountered ++ [sf.path] }
  else
    match sf.walk with
    | .ok es =>
      let acc1 := es.foldl (fun a wd => wd.files.foldl (processFile isExo) a) acc
      if itemsInFolder es == 0 && sf.isDir then
        { acc1 with empty_folders_encountered := acc1.empty_folders_encountered ++ [sf.path] }
      else acc1
    | .err es =>
      let acc1 := es.foldl (fun a wd => wd.files.foldl (processFile isExo) a) acc
      { acc1 with empty_folders_encountered := acc1.empty_folders_encountered ++ [sf.path] }

/-- The tuple returned on line 141. -/
structure AnalysisResult where
  all_top_level_folders : List String
  total_copy_size_bytes : Nat
  display_model_size_bytes : Nat
  non_stl_found : Bool
  tissue_files_present : Bool
  empty_folders : List String
deriving DecidableEq

/-- `get_recursive_folder_details` over a selection (dict iteration order = list
order).  Python's final `list(set(...))` is modelled by `List.dedup` (same
membership, order unspecified in Python anyway). -/
def get_recursive_folder_details (sel : List SrcFolder) : AnalysisResult :=
  let acc := sel.foldl processFolder {}
  { all_top_level_folders := sel.map SrcFolder.path
    total_copy_size_bytes := acc.total_copy_size_bytes
    display_model_size_bytes := acc.display_model_size_bytes
    non_stl_found := acc.non_stl_found
    tissue_files_present := acc.tissue_files_present
    empty_folders := acc.empty_folders_encountered.dedup }

/-! ### Analysis engine: `get_file_details` (lines 143-176).  The input list is
modelled by the `FileEntry`s of the listed paths, `name` being
`os.path.basename(file_path)`. -/

structure FileAcc where
  total_copy_size_bytes : Nat := 0
  display_model_size_bytes : Nat := 0
  non_stl_found : Bool := false
  tissue_files_present : Bool := false
deriving DecidableEq

/-- Body of the `for file_path in file_paths` loop, lines 153-173. -/
def processListedFile (acc : FileAcc) (f : FileEntry) : FileAcc :=
  let fl := toLowerStr f.name
  match f.stat with
  | none => acc
  | some size =>
    let acc1 := { acc with total_copy_size_bytes := acc.total_copy_size_bytes + size }
    if !(strEndsWith fl ".stl") then { acc1 with non_stl_found := true }
    else
      let acc2 :=
        if MODEL_DISPLAY_SIZE_KEYWORDS.any fun kw => strContains fl kw then
          { acc1 with display_model_size_bytes := acc1.display_model_size_bytes + size }
        else acc1
      if strContains fl "tissue" || strContains fl "gingiva" then
        { acc2 with tissue_files_present := true }
      else acc2

def get_file_details (files : List FileEntry) : FileAcc :=
  files.foldl processListedFile {}

/-! ### `is_valid_foldername` (lines 343-350) -/

def RESERVED_NAMES : List String :=
  ["CON", "PRN", "AUX", "NUL", "COM1", "COM2", "COM3", "COM4", "COM5", "COM6",
   "COM7", "COM8", "COM9", "LPT1", "LPT2", "LPT3", "LPT4", "LPT5", "LPT6",
   "LPT7", "LPT8", "LPT9"]

/-- One character of the class `[<>:"/\\|?*\x00-\x1F]` of the regex on line 346. -/
def isForbiddenChar (c : Char) : Bool :=
  c == '<' || c == '>' || c == ':' || c == '"' || c == '/' || c == '\\' ||
  c == '|' || c == '?' || c == '*' || decide (c.toNat ≤ 0x1F)

/-- `foldername.upper().split('.')[0]` of line 348: the uppercased characters
before the first dot. -/
def stemUpper (foldername : String) : String :=
  ⟨((toUpperStr foldername).data.takeWhile fun c => !(c == '.'))⟩

def is_valid_foldername (foldername : String) : Bool :=
  if foldername == "" then false
  else if foldername.data.any isForbiddenChar then false
  else if RESERVED_NAMES.contains (stemUpper foldername) then false
  else if strEndsWith foldername "." || strEndsWith foldername " " then false
  else true

/-! ### `format_size` (lines 352-359)

The Python code computes `i = int(math.floor(math.log(size_bytes, 1024)))` for
positive input (and `i = 0` otherwise), `p = 1024.0 ** i`,
`s = round(size_bytes / p, 2)` and renders `f"{s} {size_name[i]}"`; the
indexing raises `IndexError` when `i >= 5`.  The model below computes `i`, the
quotient and the 2-decimal half-even rounding in exact arithmetic (CPython does
them in IEEE doubles; for the unit index the two agree on every input except a
3-integer window just below `1024^5`, where the float logarithm already rounds
up to `5.0`).  `none` models an escaping exception. -/

def size_name : List String := ["B", "KB", "MB", "GB", "TB"]

/-- Exact `int(math.floor(math.log(n, 1024)))` for `n > 0`, clamped at 5: every
index `>= 5` is past the end of `size_name`, so the clamp is invisible in the
result. -/
def unit_index (n : Nat) : Nat :=
  if n < 1024 then 0
  else if n < 1024 ^ 2 then 1
  else if n < 1024 ^ 3 then 2
  else if n < 1024 ^ 4 then 3
  else if n < 1024 ^ 5 then 4
  else 5

/-- `round(100 * n / p)` with ties to even (Python's `round`), exactly. -/
def round2cents (n p : Nat) : Nat :=
  let a := 100 * n
  let q := a / p
  let r := a % p
  if 2 * r < p then q
  else if p < 2 * r then q + 1
  else if q % 2 == 0 then q else q + 1

/-- Rendering of the rounded float by the f-string: Python float `repr` prints
the shortest decimal, always keeping at least one fractional digit. -/
def renderCents (cents : Nat) : String :=
  let ip := cents / 100
  let fr := cents % 100
  if fr == 0 then toString ip ++ ".0"
  else if fr % 10 == 0 then toString ip ++ "." ++ toString (fr / 10)
  else if fr < 10 then toString ip ++ ".0" ++ toString fr
  else toString ip ++ "." ++ toString fr

/-- `round(size_bytes / p, 2)` rendered, for a possibly negative numerator
(half-even rounding is symmetric around 0). -/
def renderRounded (num : Int) (p : Nat) : String :=
  if num < 0 then "-" ++ renderCents (round2cents (-num).toNat p)
  else renderCents (round2cents num.toNat p)

def format_size (size_bytes : Int) : Option String :=
  if size_bytes == 0 then some "0 B"
  else
    let i := if size_bytes > 0 then unit_index size_bytes.toNat else 0
    let p := 1024 ^ i
    let s := renderRounded size_bytes p
    (size_name.get? i).map fun u => s ++ " " ++ u

/-! ### Copy engine: `copy_items` (lines 179-330)

The session-state and UI inputs the function reads are gathered in `CopyEnv`;
the `os.path.isdir` probes of the destination bases and the outcome of the
up-front `os.makedirs` of file mode are part of it (they are properties of the
destination filesystem at call time).  Performed filesystem effects are
returned as an ordered list of `FsEvent`s; user-facing messages are summarised
by `CopyStatus`. -/

structure CopyEnv where
  model_copy_mode : String := "Directly into Base"
  model_subfolder_name : String := ""
  tissue_copy_mode : String := "Directly into Base"
  tissue_subfolder_name : String := ""
  tissue_files_found_in_analysis : Bool := false
  model_base_isdir : Bool := true
  tissue_base_isdir : Bool := true
  inhouse_isdir : Bool := true
  inhouseMkdirOk : Bool := true

/-- A filesystem side effect of the copy pass: a directory created (or
confirmed, `exist_ok=True`) by `os.makedirs`, or a file written by
`shutil.copy2` into a directory under its original basename. -/
inductive FsEvent where
  | mkdir (dir : String)
  | copy (dir : String) (name : String)
deriving DecidableEq

inductive CopyStatus where
  | noItems
  | configError
  | nothingToCopy
  | mkdirError
  | completed
deriving DecidableEq

structure CopyState where
  copied : Nat := 0
  errors : Nat := 0
  events : List FsEvent := []
deriving DecidableEq

structure CopyResult where
  status : CopyStatus
  copied : Nat
  errors : Nat
  events : List FsEvent
deriving DecidableEq

/-- `os.path.join` under the Windows separator used by every configured path. -/
def joinPath (a b : String) : String := a ++ "\\" ++ b

/-- Body of the copy-pass `for file in files` loop, lines 236-263: filter,
tissue-vs-model routing, target resolution, then the `try` block
(`os.makedirs`, `shutil.copy2`) whose two syscall outcomes are `f.mkdirOk` and
`f.copyOk`; any failure lands in the `except` clause (`error_count += 1`). -/
def copyFile (env : CopyEnv) (isExo : Bool) (st : CopyState) (f : FileEntry) : CopyState :=
  let fl := toLowerStr f.name
  if !(strEndsWith fl ".stl") then st
  else if isExo && !(EXOCAD_ALLOWED_KEYWORDS.any fun kw => strContains fl kw) then st
  else
    let base := if is_tissue_file isExo fl then TISSUE_BASE_PATH else MODEL_BASE_PATH
    let mode := if is_tissue_file isExo fl then env.tissue_copy_mode else env.model_copy_mode
    let sub := if is_tissue_file isExo fl then env.tissue_subfolder_name else env.model_subfolder_name
    let target := if mode == "Into a New Subfolder" then joinPath base sub else base
    if f.mkdirOk then
      if f.copyOk then
        { st with copied := st.copied + 1,
                  events := st.events ++ [FsEvent.mkdir target, FsEvent.copy target f.name] }
      else { st with errors := st.errors + 1, events := st.events ++ [FsEvent.mkdir target] }
    else { st with errors := st.errors + 1 }

/-- Copy-pass body for one source folder, lines 232-264: walk all files, and if
the walk itself raised (`except OSError`, line 264) add one more error. -/
def copyFolderPass (env : CopyEnv) (st : CopyState) (sf : SrcFolder) : CopyState :=
  let isExo := is_exocad_origin sf.origin sf.path
  let st1 := (walkedEntries sf).foldl (fun s wd => wd.files.foldl (copyFile env isExo) s) st
  if walkOk sf then st1 else { st1 with errors := st1.errors + 1 }

/-- Pre-scan of one folder, lines 212-224: the number of walked files passing
the copy filter (a walk error only truncates the count). -/
def scanFolderCount (sf : SrcFolder) : Nat :=
  ((walkFiles sf).filter (copy_filter (is_exocad_origin sf.origin sf.path))).length

/-- `copy_items` in folder mode, lines 193-264 plus the shared epilogue. -/
def copy_items_folder (env : CopyEnv) (items : List SrcFolder) : CopyResult :=
  if items.isEmpty then ⟨CopyStatus.noItems, 0, 0, []⟩
  else if !env.model_base_isdir then ⟨CopyStatus.configError, 0, 0, []⟩
  else if !(if env.tissue_files_found_in_analysis then env.tissue_base_isdir else true)
          && env.tissue_files_found_in_analysis then ⟨CopyStatus.configError, 0, 0, []⟩
  else if env.model_copy_mode == "Into a New Subfolder"
          && !(is_valid_foldername env.model_subfolder_name) then ⟨CopyStatus.configError, 0, 0, []⟩
  else if env.tissue_files_found_in_analysis
          && env.tissue_copy_mode == "Into a New Subfolder"
          && !(is_valid_foldername env.tissue_subfolder_name) then ⟨CopyStatus.configError, 0, 0, []⟩
  else if (items.foldl (fun n sf => n + scanFolderCount sf) 0) == 0 then
    ⟨CopyStatus.nothingToCopy, 0, 0, []⟩
  else
    let st := items.foldl (copyFolderPass env) {}
    ⟨CopyStatus.completed, st.copied, st.errors, st.events⟩

/-- Body of the file-mode `for i, source_file_path` loop, lines 293-301. -/
def copyListedFileStep (target : String) (s : CopyState) (f : FileEntry) : CopyState :=
  if f.copyOk then
    { s with copied := s.copied + 1, events := s.events ++ [FsEvent.copy target f.name] }
  else { s with errors := s.errors + 1 }

/-- `copy_items` in file mode, lines 267-301 plus the shared epilogue.  The
input files are given as `FileEntry`s (`name` = `os.path.basename` of the
found path); the single up-front `os.makedirs` outcome is `env.inhouseMkdirOk`. -/
def copy_items_file (env : CopyEnv) (files : List FileEntry) : CopyResult :=
  if files.isEmpty then ⟨CopyStatus.noItems, 0, 0, []⟩
  else if !env.inhouse_isdir then ⟨CopyStatus.configError, 0, 0, []⟩
  else if env.model_copy_mode == "Into a New Subfolder"
          && !(is_valid_foldername env.model_subfolder_name) then ⟨CopyStatus.configError, 0, 0, []⟩
  else if files.length == 0 then ⟨CopyStatus.nothingToCopy, 0, 0, []⟩
  else
    let target := if env.model_copy_mode == "Into a New Subfolder"
                  then joinPath INHOUSE_PRINTING_PATH env.model_subfolder_name
                  else INHOUSE_PRINTING_PATH
    if !env.inhouseMkdirOk then ⟨CopyStatus.mkdirError, 0, 0, []⟩
    else
      let st := files.foldl (copyListedFileStep target)
        ({ events := [FsEvent.mkdir target] } : CopyState)
      ⟨CopyStatus.completed, st.copied, st.errors, st.events⟩

/-! ### Destination-directory semantics

Modelled from the spec: the destination state is the set of `(directory,
filename)` pairs present; `shutil.copy2` to an existing path silently
overwrites it (last writer wins) and to a fresh path creates it;
`os.makedirs(..., exist_ok=True)` adds no file. -/

def insertPair (dest : List (String × String)) (x : String × String) : List (String × String) :=
  if x ∈ dest then dest else dest ++ [x]

def applyFsEvent (dest : List (String × String)) (e : FsEvent) : List (String × String) :=
  match e with
  | .mkdir _ => dest
  | .copy d n => insertPair dest (d, n)

def applyFsEvents (dest : List (String × String)) (evs : List FsEvent) : List (String × String) :=
  evs.foldl applyFsEvent dest

/-- The `(directory, filename)` pairs written by an event list, in order. -/
def copyPairs (evs : List FsEvent) : List (String × String) :=
  evs.filterMap fun e =>
    match e with
    | .copy d n => some (d, n)
    | .mkdir _ => none

/-! ### Spec-side classifier (section 4.1 of the spec) -/

/-- `isStlFile(name)`: extension check, case-insensitive. -/
def isStlFile (name : String) : Bool := strEndsWith (toLowerStr name) ".stl"

/-- `isAllowedForOrigin(name, origin)`: true unless the origin is restricted and
the name contains none of the allow-list keywords. -/
def isAllowedForOrigin (isExo : Bool) (name : String) : Bool :=
  !isExo || (EXOCAD_ALLOWED_KEYWORDS.any fun kw => strContains (toLowerStr name) kw)

/-- The contribution of one file to the copyable total: its size if it is an
allowed STL, else 0. -/
def copyableSizeOfFile (isExo : Bool) (f : FileEntry) : Nat :=
  if isStlFile f.name && isAllowedForOrigin isExo f.name then f.stat.getD 0 else 0

/-- The spec's per-folder copyable total: sum over the files of the subtree. -/
def copyableSizeOfFolder (sf : SrcFolder) : Nat :=
  if sf.isDir then
    ((walkFiles sf).map (copyableSizeOfFile (is_exocad_origin sf.origin sf.path))).sum
  else 0

/-- Names of the files of `sf` that pass the copy filter. -/
def copyableNames (sf : SrcFolder) : List String :=
  ((walkFiles sf).filter (copy_filter (is_exocad_origin sf.origin sf.path))).map FileEntry.name

/-- Whether the copy-pass `try` block for this file succeeds entirely. -/
def copyAttemptOk (f : FileEntry) : Bool := f.mkdirOk && f.copyOk

/-- Number of copyable files of `sf` whose copy attempt succeeds. -/
def specFolderCopied (sf : SrcFolder) : Nat :=
  ((walkFiles sf).filter fun f =>
    copy_filter (is_exocad_origin sf.origin sf.path) f && copyAttemptOk f).length

/-- Number of copyable files of `sf` whose copy attempt fails. -/
def specFolderErrors (sf : SrcFolder) : Nat :=
  ((walkFiles sf).filter fun f =>
    copy_filter (is_exocad_origin sf.origin sf.path) f && !copyAttemptOk f).length

/-! ## Lemmas about the analysis engine -/

theorem processFile_stat_none (isExo : Bool) (acc : AnalysisAcc) (f : FileEntry)
    (h : f.stat = none) : processFile isExo acc f = acc := by
  unfold processFile
  rw [h]

theorem processFile_total (isExo : Bool) (acc : AnalysisAcc) (f : FileEntry) :
    (processFile isExo acc f).total_copy_size_bytes
      = acc.total_copy_size_bytes + copyableSizeOfFile isExo f := by
  unfold processFile copyableSizeOfFile isStlFile isAllowedForOrigin
  cases h : f.stat with
  | none => simp [h]
  | some s =>
    by_cases hstl : strEndsWith (toLowerStr f.name) ".stl" <;>
      by_cases hkw : (EXOCAD_ALLOWED_KEYWORDS.any fun kw => strContains (toLowerStr f.name) kw) <;>
        cases isExo <;> simp [h, hstl, hkw] <;> split_ifs <;> simp_all

theorem foldl_processFile_total (isExo : Bool) (fs : List FileEntry) (acc : AnalysisAcc) :
    (fs.foldl (processFile isExo) acc).total_copy_size_bytes
      = acc.total_copy_size_bytes + (fs.map (copyableSizeOfFile isExo)).sum := by
  induction fs generalizing acc with
  | nil => simp
  | cons f fs ih => simp [List.foldl_cons, ih, processFile_total, Nat.add_assoc]

theorem foldl_entries_total (isExo : Bool) (es : List WalkDir) (acc : AnalysisAcc) :
    (es.foldl (fun a wd => wd.files.foldl (processFile isExo) a) acc).total_copy_size_bytes
      = acc.total_copy_size_bytes
        + (((es.map WalkDir.files).flatten).map (copyableSizeOfFile isExo)).sum := by
  induction es generalizing acc with
  | nil => simp
  | cons wd es ih =>
    simp [List.foldl_cons, ih, foldl_processFile_total, Nat.add_assoc]

theorem processFolder_total (acc : AnalysisAcc) (sf : SrcFolder) :
    (processFolder acc sf).total_copy_size_bytes
      = acc.total_copy_size_bytes + copyableSizeOfFolder sf := by
  unfold processFolder copyableSizeOfFolder walkFiles walkedEntries
  cases hd : sf.isDir with
  | false => simp
  | true =>
    cases hw : sf.walk with
    | ok es =>
      simp only [Bool.not_true, Bool.false_eq_true, if_false]
      split <;>
        simp [foldl_entries_total, List.map_flatten, List.sum_flatten, List.map_map,
          Function.comp]
    | err es =>
      simp [foldl_entries_total, List.map_flatten, List.sum_flatten, List.map_map,
        Function.comp]

theorem foldl_processFolder_total (sel : List SrcFolder) (acc : AnalysisAcc) :
    (sel.foldl processFolder acc).total_copy_size_bytes
      = acc.total_copy_size_bytes + (sel.map copyableSizeOfFolder).sum := by
  induction sel generalizing acc with
  | nil => simp
  | cons sf sel ih => simp [List.foldl_cons, ih, processFolder_total, Nat.add_assoc]

theorem analysis_total (sel : List SrcFolder) :
    (get_recursive_folder_details sel).total_copy_size_bytes
      = (sel.map copyableSizeOfFolder).sum := by
  unfold get_recursive_folder_details
  simp [foldl_processFolder_total]

/-! ## Claim C1 -/

/-- C1: for every folder selection over a filesystem in which every walk
succeeds and every file-size stat succeeds, the total copyable size returned by
`get_recursive_folder_details` equals the sum, over the files of the selected
subtrees, of the sizes of exactly those files that are `.stl`
(case-insensitive) and pass the origin allow-list. -/
theorem claim_C1_total_copyable_size (sel : List SrcFolder)
    (hwalk : ∀ sf ∈ sel, walkOk sf = true)
    (hstat : ∀ sf ∈ sel, ∀ f ∈ walkFiles sf, (f.stat).isSome = true) :
    (get_recursive_folder_details sel).total_copy_size_bytes
      = (sel.map copyableSizeOfFolder).sum :=
  analysis_total sel

theorem claim_C1_total_copyable_size_witness :
    (∀ sf ∈ [(⟨"p", "Lab", true,
        .ok [⟨0, [⟨"a.stl", some 5, true, true⟩, ⟨"b.txt", some 3, true, true⟩]⟩]⟩ : SrcFolder)],
      walkOk sf = true)
    ∧ (get_recursive_folder_details [⟨"p", "Lab", true,
        .ok [⟨0, [⟨"a.stl", some 5, true, true⟩, ⟨"b.txt", some 3, true, true⟩]⟩]⟩]).total_copy_size_bytes
      = ([(⟨"p", "Lab", true,
        .ok [⟨0, [⟨"a.stl", some 5, true, true⟩, ⟨"b.txt", some 3, true, true⟩]⟩]⟩ : SrcFolder)].map
          copyableSizeOfFolder).sum :=
  ⟨by decide, claim_C1_total_copyable_size _ (by decide) (by decide)⟩

/-! ## Claim C2 -/

/-- C2 fails in file mode: in `get_file_details` a single file whose name
matches both a display keyword and a tissue keyword (here `model_tissue.stl`)
is counted toward the display model size AND flagged as tissue. -/
theorem claim_C2_counterexample :
    (get_file_details [⟨"model_tissue.stl", some 10, true, true⟩]).display_model_size_bytes = 10
    ∧ (get_file_details [⟨"model_tissue.stl", some 10, true, true⟩]).tissue_files_present = true
    ∧ (get_file_details []).display_model_size_bytes = 0
    ∧ (get_file_details []).tissue_files_present = false := by
  decide

/-- C2 (amended): in folder mode (`get_recursive_folder_details`) the two
classifications are mutually exclusive for any single file: one step of the
per-file loop never changes both the display model size and the tissue flag. -/
theorem claim_C2_folder_mode_exclusive (isExo : Bool) (acc : AnalysisAcc) (f : FileEntry) :
    ((processFile isExo acc f).display_model_size_bytes ≠ acc.display_model_size_bytes →
      (processFile isExo acc f).tissue_files_present = acc.tissue_files_present)
    ∧ ((processFile isExo acc f).tissue_files_present ≠ acc.tissue_files_present →
      (processFile isExo acc f).display_model_size_bytes = acc.display_model_size_bytes) := by
  unfold processFile
  cases h : f.stat with
  | none => simp
  | some s =>
    dsimp only
    split_ifs <;> simp_all

theorem claim_C2_folder_mode_exclusive_witness :
    ((processFile false {} ⟨"tissue.stl", some 5, true, true⟩).tissue_files_present
        ≠ (({} : AnalysisAcc)).tissue_files_present)
    ∧ (processFile false {} ⟨"tissue.stl", some 5, true, true⟩).display_model_size_bytes
        = (({} : AnalysisAcc)).display_model_size_bytes :=
  ⟨by decide, (claim_C2_folder_mode_exclusive false {} ⟨"tissue.stl", some 5, true, true⟩).2
      (by decide)⟩

/-! ## Lemmas for claim C7 -/

theorem processFile_nonStl_mono (isExo : Bool) (acc : AnalysisAcc) (f : FileEntry)
    (h : acc.non_stl_found = true) : (processFile isExo acc f).non_stl_found = true := by
  unfold processFile
  cases hs : f.stat with
  | none => exact h
  | some s =>
    dsimp only
    split_ifs <;> simp_all

theorem processFile_nonStl_sets (isExo : Bool) (acc : AnalysisAcc) (f : FileEntry)
    (hsome : (f.stat).isSome = true)
    (hstl : strEndsWith (toLowerStr f.name) ".stl" = false) :
    (processFile isExo acc f).non_stl_found = true := by
  unfold processFile
  cases hs : f.stat with
  | none => simp [hs] at hsome
  | some s => simp [hstl]

theorem foldl_processFile_nonStl_mono (isExo : Bool) (fs : List FileEntry) (acc : AnalysisAcc)
    (h : acc.non_stl_found = true) :
    (fs.foldl (processFile isExo) acc).non_stl_found = true := by
  induction fs generalizing acc with
  | nil => exact h
  | cons f fs ih => exact ih _ (processFile_nonStl_mono isExo acc f h)

theorem foldl_processFile_nonStl_of_mem (isExo : Bool) (fs : List FileEntry) (acc : AnalysisAcc)
    (f : FileEntry) (hmem : f ∈ fs) (hsome : (f.stat).isSome = true)
    (hstl : strEndsWith (toLowerStr f.name) ".stl" = false) :
    (fs.foldl (processFile isExo) acc).non_stl_found = true := by
  induction fs generalizing acc with
  | nil => cases hmem
  | cons g fs ih =>
    rcases List.mem_cons.mp hmem with hg | hg
    · subst hg
      exact foldl_processFile_nonStl_mono isExo fs _ (processFile_nonStl_sets isExo acc f hsome hstl)
    · exact ih _ hg

theorem foldl_entries_nonStl_mono (isExo : Bool) (es : List WalkDir) (acc : AnalysisAcc)
    (h : acc.non_stl_found = true) :
    (es.foldl (fun a wd => wd.files.foldl (processFile isExo) a) acc).non_stl_found = true := by
  induction es generalizing acc with
  | nil => exact h
  | cons wd es ih => exact ih _ (foldl_processFile_nonStl_mono isExo wd.files acc h)

theorem foldl_entries_nonStl_of_mem (isExo : Bool) (es : List WalkDir) (acc : AnalysisAcc)
    (f : FileEntry) (hmem : f ∈ (es.map WalkDir.files).flatten) (hsome : (f.stat).isSome = true)
    (hstl : strEndsWith (toLowerStr f.name) ".stl" = false) :
    (es.foldl (fun a wd => wd.files.foldl (processFile isExo) a) acc).non_stl_found = true := by
  induction es generalizing acc with
  | nil => simp at hmem
  | cons wd es ih =>
    rw [List.map_cons, List.flatten_cons, List.mem_append] at hmem
    rcases hmem with hg | hg
    · exact foldl_entries_nonStl_mono isExo es _
        (foldl_processFile_nonStl_of_mem isExo wd.files acc f hg hsome hstl)
    · exact ih _ hg

theorem processFolder_nonStl_mono (acc : AnalysisAcc) (sf : SrcFolder)
    (h : acc.non_stl_found = true) : (processFolder acc sf).non_stl_found = true := by
  obtain ⟨p, o, d, w⟩ := sf
  cases d with
  | false => cases w <;> simpa [processFolder] using h
  | true =>
    cases w with
    | ok es =>
      have K := foldl_entries_nonStl_mono (is_exocad_origin o p) es acc h
      simp only [processFolder]
      repeat' split
      all_goals simp_all
    | err es =>
      have K := foldl_entries_nonStl_mono (is_exocad_origin o p) es acc h
      simp only [processFolder]
      simp_all

theorem processFolder_nonStl_of_mem (acc : AnalysisAcc) (sf : SrcFolder) (f : FileEntry)
    (hd : sf.isDir = true) (hmem : f ∈ walkFiles sf) (hsome : (f.stat).isSome = true)
    (hstl : strEndsWith (toLowerStr f.name) ".stl" = false) :
    (processFolder acc sf).non_stl_found = true := by
  obtain ⟨p, o, d, w⟩ := sf
  subst hd
  cases w with
  | ok es =>
    simp only [walkFiles, walkedEntries] at hmem
    have K := foldl_entries_nonStl_of_mem (is_exocad_origin o p) es acc f hmem hsome hstl
    simp only [processFolder]
    repeat' split
    all_goals simp_all
  | err es =>
    simp only [walkFiles, walkedEntries] at hmem
    have K := foldl_entries_nonStl_of_mem (is_exocad_origin o p) es acc f hmem hsome hstl
    simp only [processFolder]
    simp_all

theorem processFile_empty (isExo : Bool) (acc : AnalysisAcc) (f : FileEntry) :
    (processFile isExo acc f).empty_folders_encountered = acc.empty_folders_encountered := by
  unfold processFile
  cases f.stat with
  | none => rfl
  | some s =>
    dsimp only
    split_ifs <;> rfl

theorem foldl_processFile_empty (isExo : Bool) (fs : List FileEntry) (acc : AnalysisAcc) :
    (fs.foldl (processFile isExo) acc).empty_folders_encountered
      = acc.empty_folders_encountered := by
  induction fs generalizing acc with
  | nil => rfl
  | cons f fs ih => rw [List.foldl_cons, ih, processFile_empty]

theorem foldl_entries_empty (isExo : Bool) (es : List WalkDir) (acc : AnalysisAcc) :
    (es.foldl (fun a wd => wd.files.foldl (processFile isExo) a) acc).empty_folders_encountered
      = acc.empty_folders_encountered := by
  induction es generalizing acc with
  | nil => rfl
  | cons wd es ih => rw [List.foldl_cons, ih, foldl_processFile_empty]

theorem processFolder_empty_mono (acc : AnalysisAcc) (sf : SrcFolder) (x : String)
    (h : x ∈ acc.empty_folders_encountered) :
    x ∈ (processFolder acc sf).empty_folders_encountered := by
  obtain ⟨p, o, d, w⟩ := sf
  cases d <;> cases w <;> simp only [processFolder] <;>
    first
    | exact List.mem_append_left _ h
    | · repeat' split
        all_goals simp_all [foldl_entries_empty]

theorem processFolder_marks_empty (acc : AnalysisAcc) (sf : SrcFolder)
    (h : sf.isDir = false ∨ walkOk sf = false) :
    sf.path ∈ (processFolder acc sf).empty_folders_encountered := by
  obtain ⟨p, o, d, w⟩ := sf
  cases d <;> cases w <;> simp_all [processFolder, walkOk, foldl_entries_empty]

theorem foldl_processFolder_empty_mono (sel : List SrcFolder) (acc : AnalysisAcc) (x : String)
    (h : x ∈ acc.empty_folders_encountered) :
    x ∈ (sel.foldl processFolder acc).empty_folders_encountered := by
  induction sel generalizing acc with
  | nil => exact h
  | cons sf sel ih => exact ih _ (processFolder_empty_mono acc sf x h)

theorem foldl_processFolder_nonStl_mono (sel : List SrcFolder) (acc : AnalysisAcc)
    (h : acc.non_stl_found = true) :
    (sel.foldl processFolder acc).non_stl_found = true := by
  induction sel generalizing acc with
  | nil => exact h
  | cons sf sel ih => exact ih _ (processFolder_nonStl_mono acc sf h)

theorem foldl_processFolder_nonStl_of_mem (sel : List SrcFolder) (acc : AnalysisAcc)
    (sf : SrcFolder) (f : FileEntry) (hmem : sf ∈ sel) (hd : sf.isDir = true)
    (hf : f ∈ walkFiles sf) (hsome : (f.stat).isSome = true)
    (hstl : strEndsWith (toLowerStr f.name) ".stl" = false) :
    (sel.foldl processFolder acc).non_stl_found = true := by
  induction sel generalizing acc with
  | nil => cases hmem
  | cons s0 sel ih =>
    rcases List.mem_cons.mp hmem with hs | hs
    · subst hs
      exact foldl_processFolder_nonStl_mono sel _
        (processFolder_nonStl_of_mem acc sf f hd hf hsome hstl)
    · exact ih _ hs

theorem foldl_processFolder_marks_empty (sel : List SrcFolder) (acc : AnalysisAcc)
    (sf : SrcFolder) (hmem : sf ∈ sel) (h : sf.isDir = false ∨ walkOk sf = false) :
    sf.path ∈ (sel.foldl processFolder acc).empty_folders_encountered := by
  induction sel generalizing acc with
  | nil => cases hmem
  | cons s0 sel ih =>
    rcases List.mem_cons.mp hmem with hs | hs
    · subst hs
      exact foldl_processFolder_empty_mono sel _ _ (processFolder_marks_empty acc sf h)
    · exact ih _ hs

/-! ## Claim C7 -/

/-- C7 as stated is false: a subtree may contain a file that does not end in
`.stl` (here `a.txt`) whose size stat fails; the file is skipped before the
extension test, so the non-STL flag stays `false`. -/
theorem claim_C7_counterexample :
    (∃ f ∈ walkFiles (⟨"p", "Lab", true, .ok [⟨0, [⟨"a.txt", none, true, true⟩]⟩]⟩ : SrcFolder),
        strEndsWith (toLowerStr f.name) ".stl" = false)
    ∧ (get_recursive_folder_details
        [⟨"p", "Lab", true, .ok [⟨0, [⟨"a.txt", none, true, true⟩]⟩]⟩]).non_stl_found = false := by
  constructor
  · exact ⟨⟨"a.txt", none, true, true⟩, by decide, by decide⟩
  · decide

/-- C7 (amended): `get_recursive_folder_details` sets the non-STL flag whenever
some walked file of a selected subtree whose size stat succeeds does not end in
`.stl` (case-insensitive); a file whose stat raises is skipped silently (the
per-file loop step is the identity on the accumulator); and a selected folder
that is not a directory or whose walk raises is marked empty/inaccessible,
the analysis always returning a result. -/
theorem claim_C7_error_tolerance :
    (∀ (sel : List SrcFolder) (sf : SrcFolder) (f : FileEntry), sf ∈ sel → sf.isDir = true →
      f ∈ walkFiles sf → (f.stat).isSome = true →
      strEndsWith (toLowerStr f.name) ".stl" = false →
      (get_recursive_folder_details sel).non_stl_found = true)
    ∧ (∀ (isExo : Bool) (acc : AnalysisAcc) (f : FileEntry), f.stat = none →
      processFile isExo acc f = acc)
    ∧ (∀ (sel : List SrcFolder) (sf : SrcFolder), sf ∈ sel →
      (sf.isDir = false ∨ walkOk sf = false) →
      sf.path ∈ (get_recursive_folder_details sel).empty_folders) := by
  refine ⟨?_, processFile_stat_none, ?_⟩
  · intro sel sf f hmem hd hf hsome hstl
    unfold get_recursive_folder_details
    dsimp only
    exact foldl_processFolder_nonStl_of_mem sel _ sf f hmem hd hf hsome hstl
  · intro sel sf hmem h
    unfold get_recursive_folder_details
    dsimp only
    rw [List.mem_dedup]
    exact foldl_processFolder_marks_empty sel _ sf hmem h

theorem claim_C7_error_tolerance_witness :
    (get_recursive_folder_details
      [⟨"p", "Lab", true, .ok [⟨0, [⟨"b.txt", some 3, true, true⟩]⟩]⟩]).non_stl_found = true :=
  claim_C7_error_tolerance.1
    [⟨"p", "Lab", true, .ok [⟨0, [⟨"b.txt", some 3, true, true⟩]⟩]⟩]
    ⟨"p", "Lab", true, .ok [⟨0, [⟨"b.txt", some 3, true, true⟩]⟩]⟩
    ⟨"b.txt", some 3, true, true⟩ (by decide) (by decide) (by decide) (by decide) (by decide)

/-! ## Claim C6 -/

/-- C6: `is_valid_foldername` rejects any name ending in a period or a space,
any name containing a forbidden character (`< > : " / \ | ? *` or a control
character), and any name whose uppercased part before the first dot is a
reserved device name; in particular it rejects `""`, `"a/b"`, `"CON"`,
`"con.txt"`, `"name."`, `"name "` and accepts `"Project_2025"`. -/
theorem claim_C6_is_valid_foldername :
    (∀ n : String, strEndsWith n "." = true → is_valid_foldername n = false)
    ∧ (∀ n : String, strEndsWith n " " = true → is_valid_foldername n = false)
    ∧ (∀ (n : String) (c : Char), c ∈ n.data → isForbiddenChar c = true →
        is_valid_foldername n = false)
    ∧ (∀ n : String, RESERVED_NAMES.contains (stemUpper n) = true →
        is_valid_foldername n = false)
    ∧ is_valid_foldername "" = false
    ∧ is_valid_foldername "a/b" = false
    ∧ is_valid_foldername "CON" = false
    ∧ is_valid_foldername "con.txt" = false
    ∧ is_valid_foldername "name." = false
    ∧ is_valid_foldername "name " = false
    ∧ is_valid_foldername "Project_2025" = true := by
  refine ⟨?_, ?_, ?_, ?_, by decide, by decide, by decide, by decide, by decide, by decide,
    by decide⟩
  · intro n h
    simp [is_valid_foldername, h]
  · intro n h
    simp [is_valid_foldername, h]
  · intro n c hc hf
    have h2 : n.data.any isForbiddenChar = true := List.any_eq_true.mpr ⟨c, hc, hf⟩
    simp [is_valid_foldername, h2]
  · intro n h
    have h2 : stemUpper n ∈ RESERVED_NAMES := by simpa using h
    simp [is_valid_foldername, h2]

theorem claim_C6_is_valid_foldername_witness :
    is_valid_foldername "report." = false :=
  claim_C6_is_valid_foldername.1 "report." (by decide)

/-! ## Lemmas about `unit_index` -/

theorem unit_index_eq (n i : Nat) (h1 : 1024 ^ i ≤ n) (h2 : n < 1024 ^ (i + 1)) (h5 : i < 5) :
    unit_index n = i := by
  interval_cases i <;>
    · norm_num [unit_index] at h1 h2 ⊢
      split_ifs <;> omega

theorem unit_index_lt_five (n : Nat) (h : n < 1024 ^ 5) : unit_index n < 5 := by
  norm_num [unit_index] at h ⊢
  split_ifs <;> omega

theorem unit_index_five (n : Nat) (h : 1024 ^ 5 ≤ n) : unit_index n = 5 := by
  norm_num [unit_index] at h ⊢
  split_ifs <;> omega

/-! ## Claim C8 -/

/-- C8: `format_size` renders 0 as `"0 B"`, 1024 as `"1.0 KB"`, 1536 as
`"1.5 KB"`; and for every positive count bracketed by consecutive powers of
1024 (unit index below 5) it renders the count divided by that power of 1024,
rounded to two decimals, followed by the base-1024 unit. -/
theorem claim_C8_format_size :
    format_size 0 = some "0 B"
    ∧ format_size 1024 = some "1.0 KB"
    ∧ format_size 1536 = some "1.5 KB"
    ∧ (∀ n i : Nat, 0 < n → 1024 ^ i ≤ n → n < 1024 ^ (i + 1) → i < 5 →
        ∃ u, size_name[i]? = some u ∧
          format_size (n : Int)
            = some (renderCents (round2cents n (1024 ^ i)) ++ " " ++ u)) := by
  refine ⟨by decide, by decide, by decide, ?_⟩
  intro n i hn h1 h2 h5
  have hui : unit_index n = i := unit_index_eq n i h1 h2 h5
  obtain ⟨u, hu⟩ : ∃ u, size_name[i]? = some u := by
    interval_cases i <;> exact ⟨_, rfl⟩
  have h0 : ¬((n : Int) = 0) := by omega
  have hpos : (0 : Int) < (n : Int) := by omega
  have hneg : ¬((n : Int) < 0) := by omega
  exact ⟨u, hu, by simp [format_size, renderRounded, h0, hpos, hneg, hui, hu]⟩

theorem claim_C8_format_size_witness :
    ∃ u, size_name[1]? = some u ∧
      format_size ((2048 : Nat) : Int)
        = some (renderCents (round2cents 2048 (1024 ^ 1)) ++ " " ++ u) :=
  claim_C8_format_size.2.2.2 2048 1 (by decide) (by decide) (by decide) (by decide)

/-! ## Claim C10 -/

/-- C10 as stated is false on negative inputs: the unit index is guarded by
`if size_bytes > 0`, so `math.log` is never called on a negative count;
`format_size (-5)` returns the string `"-5.0 B"` instead of raising. -/
theorem claim_C10_counterexample :
    format_size (-5) = some "-5.0 B" := by decide

/-- C10 (amended): `format_size` returns a string for every negative input
(unit index forced to 0, unit `B`) and for every input in `[0, 1024^5)`; it
raises (unit index past the end of the unit tuple) exactly for inputs
`>= 1024^5` (unit index computed with the exact logarithm; the float
logarithm of the code already raises at `1024^5 - 1`). -/
theorem claim_C10_partiality (b : Int) :
    (b < 0 → (format_size b).isSome = true)
    ∧ (0 ≤ b → b < (1024 : Int) ^ 5 → (format_size b).isSome = true)
    ∧ ((1024 : Int) ^ 5 ≤ b → format_size b = none) := by
  refine ⟨?_, ?_, ?_⟩
  · intro hb
    have h0 : ¬(b = 0) := by omega
    have hpos : ¬(0 < b) := by omega
    simp [format_size, h0, hpos]
    decide
  · intro hb0 hb5
    by_cases h0 : b = 0
    · subst h0
      decide
    · have hpos : 0 < b := by omega
      have hn : b.toNat < 1024 ^ 5 := by
        have : (1024 : Int) ^ 5 = 1125899906842624 := by norm_num
        omega
      have hlt := unit_index_lt_five b.toNat hn
      have hg : (size_name.get? (unit_index b.toNat)).isSome = true := by
        have : ∀ j, j < 5 → (size_name.get? j).isSome = true := by decide
        exact this _ hlt
      simp [format_size, h0, hpos]
      simpa using hg
  · intro hb
    have h0 : ¬(b = 0) := by
      have : (1024 : Int) ^ 5 = 1125899906842624 := by norm_num
      omega
    have hpos : 0 < b := by
      have : (1024 : Int) ^ 5 = 1125899906842624 := by norm_num
      omega
    have hn : 1024 ^ 5 ≤ b.toNat := by
      have : (1024 : Int) ^ 5 = 1125899906842624 := by norm_num
      have h2 : (1024 : Nat) ^ 5 = 1125899906842624 := by norm_num
      omega
    have h5 := unit_index_five b.toNat hn
    simp [format_size, h0, hpos, h5]
    decide

theorem claim_C10_partiality_witness :
    ((format_size (-7)).isSome = true)
    ∧ ((format_size 999).isSome = true)
    ∧ (format_size 1125899906842624 = none) :=
  ⟨(claim_C10_partiality (-7)).1 (by decide),
   (claim_C10_partiality 999).2.1 (by decide) (by decide),
   (claim_C10_partiality 1125899906842624).2.2 (by decide)⟩

/-! ## Claim C9 -/

theorem is_exocad_origin_false_of_not_prefixed (o p : String)
    (h : strStartsWith p EXOCAD_SOURCE_PATH = false) : is_exocad_origin o p = false := by
  simp [is_exocad_origin, h]

/-- C9: in both the analysis engine and the copy engine the Exocad rules apply
to a folder exactly when its origin label is `"Exocad"` AND its path starts
with the configured Exocad source path; a folder labelled `"Exocad"` whose path
does not start with that prefix is processed exactly like a folder of a
non-restricted origin (here `"Model Material"`), so every `.stl` in it is
copyable (witnessed by `randomname.stl`, copyable there but filtered out under
a genuine Exocad path). -/
theorem claim_C9_exocad_gating :
    (∀ o p : String, is_exocad_origin o p
        = (o == "Exocad" && strStartsWith p EXOCAD_SOURCE_PATH))
    ∧ (∀ (acc : AnalysisAcc) (sf : SrcFolder),
        strStartsWith sf.path EXOCAD_SOURCE_PATH = false →
        processFolder acc sf = processFolder acc { sf with origin := "Model Material" })
    ∧ (∀ (env : CopyEnv) (st : CopyState) (sf : SrcFolder),
        strStartsWith sf.path EXOCAD_SOURCE_PATH = false →
        copyFolderPass env st sf = copyFolderPass env st { sf with origin := "Model Material" })
    ∧ (∀ sf : SrcFolder, strStartsWith sf.path EXOCAD_SOURCE_PATH = false →
        scanFolderCount sf = scanFolderCount { sf with origin := "Model Material" })
    ∧ (get_recursive_folder_details
        [⟨"X:\\j", "Exocad", true, .ok [⟨0, [⟨"randomname.stl", some 7, true, true⟩]⟩]⟩]).total_copy_size_bytes = 7
    ∧ (get_recursive_folder_details
        [⟨"\\\\Skdla-sa-nas01\\skdla-sa\\CAD-Data -- Exocad\\job1", "Exocad", true,
          .ok [⟨0, [⟨"randomname.stl", some 7, true, true⟩]⟩]⟩]).total_copy_size_bytes = 0 := by
  refine ⟨?_, ?_, ?_, ?_, by decide, by decide⟩
  · intro o p
    have he : (EXOCAD_SOURCE_PATH == "") = false := by decide
    simp [is_exocad_origin, he]
  · intro acc sf h
    obtain ⟨p, o, d, w⟩ := sf
    simp only at h
    simp only [processFolder, is_exocad_origin, h, Bool.and_false]
  · intro env st sf h
    obtain ⟨p, o, d, w⟩ := sf
    simp only at h
    simp only [copyFolderPass, is_exocad_origin, h, Bool.and_false, walkOk, walkedEntries]
  · intro sf h
    obtain ⟨p, o, d, w⟩ := sf
    simp only at h
    simp only [scanFolderCount, is_exocad_origin, h, Bool.and_false, walkFiles, walkedEntries]

theorem claim_C9_exocad_gating_witness :
    processFolder {} (⟨"X:\\j", "Exocad", true,
        .ok [⟨0, [⟨"randomname.stl", some 7, true, true⟩]⟩]⟩ : SrcFolder)
      = processFolder {} (⟨"X:\\j", "Model Material", true,
        .ok [⟨0, [⟨"randomname.stl", some 7, true, true⟩]⟩]⟩ : SrcFolder) :=
  claim_C9_exocad_gating.2.1 {}
    ⟨"X:\\j", "Exocad", true, .ok [⟨0, [⟨"randomname.stl", some 7, true, true⟩]⟩]⟩
    (by decide)

/-! ## Claim C3 -/

/-- C3: whenever `copy_items` detects a configuration error — an invalid model,
tissue, or in-house destination base, or an invalid subfolder name while the
"Into a New Subfolder" mode is selected — it returns before the scan and copy
passes with zero filesystem side effects: no event is emitted, nothing is
copied, and no error is counted. -/
theorem claim_C3_config_error_aborts :
    (∀ (env : CopyEnv) (items : List SrcFolder), items ≠ [] →
      (env.model_base_isdir = false
        ∨ (env.tissue_files_found_in_analysis = true ∧ env.tissue_base_isdir = false)
        ∨ (env.model_copy_mode = "Into a New Subfolder"
            ∧ is_valid_foldername env.model_subfolder_name = false)
        ∨ (env.tissue_files_found_in_analysis = true
            ∧ env.tissue_copy_mode = "Into a New Subfolder"
            ∧ is_valid_foldername env.tissue_subfolder_name = false)) →
      copy_items_folder env items = ⟨CopyStatus.configError, 0, 0, []⟩)
    ∧ (∀ (env : CopyEnv) (files : List FileEntry), files ≠ [] →
      (env.inhouse_isdir = false
        ∨ (env.model_copy_mode = "Into a New Subfolder"
            ∧ is_valid_foldername env.model_subfolder_name = false)) →
      copy_items_file env files = ⟨CopyStatus.configError, 0, 0, []⟩) := by
  constructor
  · intro env items hitems hcond
    have hne : items.isEmpty = false := by
      simpa [List.isEmpty_iff] using hitems
    unfold copy_items_folder
    rw [hne]
    split_ifs <;> try rfl
    all_goals
      exfalso
      rcases hcond with h | ⟨ha, hb⟩ | ⟨ha, hb⟩ | ⟨ha, hb, hc⟩ <;> simp_all
  · intro env files hfiles hcond
    have hne : files.isEmpty = false := by
      simpa [List.isEmpty_iff] using hfiles
    unfold copy_items_file
    rw [hne]
    split_ifs <;> try rfl
    all_goals
      exfalso
      rcases hcond with h | ⟨ha, hb⟩ <;> simp_all

theorem claim_C3_config_error_aborts_witness :
    copy_items_folder
        { model_base_isdir := false }
        [⟨"p", "Lab", true, .ok [⟨0, [⟨"a.stl", some 5, true, true⟩]⟩]⟩]
      = ⟨CopyStatus.configError, 0, 0, []⟩ :=
  claim_C3_config_error_aborts.1 { model_base_isdir := false }
    [⟨"p", "Lab", true, .ok [⟨0, [⟨"a.stl", some 5, true, true⟩]⟩]⟩]
    (by decide) (Or.inl rfl)

/-! ## Lemmas about the copy pass -/

theorem copyFile_copied (env : CopyEnv) (e : Bool) (st : CopyState) (f : FileEntry) :
    (copyFile env e st f).copied
      = st.copied + (if copy_filter e f && copyAttemptOk f then 1 else 0) := by
  unfold copyFile copy_filter copyAttemptOk
  by_cases h1 : strEndsWith (toLowerStr f.name) ".stl"
  · by_cases h2 : (e && !(EXOCAD_ALLOWED_KEYWORDS.any fun kw => strContains (toLowerStr f.name) kw))
    · simp [h1, h2]
    · by_cases h3 : f.mkdirOk <;> by_cases h4 : f.copyOk <;> simp [h1, h2, h3, h4]
  · simp [h1]

theorem copyFile_errors (env : CopyEnv) (e : Bool) (st : CopyState) (f : FileEntry) :
    (copyFile env e st f).errors
      = st.errors + (if copy_filter e f && !copyAttemptOk f then 1 else 0) := by
  unfold copyFile copy_filter copyAttemptOk
  by_cases h1 : strEndsWith (toLowerStr f.name) ".stl"
  · by_cases h2 : (e && !(EXOCAD_ALLOWED_KEYWORDS.any fun kw => strContains (toLowerStr f.name) kw))
    · simp [h1, h2]
    · by_cases h3 : f.mkdirOk <;> by_cases h4 : f.copyOk <;> simp [h1, h2, h3, h4]
  · simp [h1]

theorem foldl_copyFile_copied (env : CopyEnv) (e : Bool) (fs : List FileEntry) (st : CopyState) :
    (fs.foldl (copyFile env e) st).copied
      = st.copied + (fs.filter fun f => copy_filter e f && copyAttemptOk f).length := by
  induction fs generalizing st with
  | nil => simp
  | cons f fs ih =>
    rw [List.foldl_cons, ih, copyFile_copied, List.filter_cons]
    split <;> simp <;> omega

theorem foldl_copyFile_errors (env : CopyEnv) (e : Bool) (fs : List FileEntry) (st : CopyState) :
    (fs.foldl (copyFile env e) st).errors
      = st.errors + (fs.filter fun f => copy_filter e f && !copyAttemptOk f).length := by
  induction fs generalizing st with
  | nil => simp
  | cons f fs ih =>
    rw [List.foldl_cons, ih, copyFile_errors, List.filter_cons]
    split <;> simp <;> omega

theorem foldl_entries_copied (env : CopyEnv) (e : Bool) (es : List WalkDir) (st : CopyState) :
    (es.foldl (fun s wd => wd.files.foldl (copyFile env e) s) st).copied
      = st.copied
        + (((es.map WalkDir.files).flatten).filter fun f =>
            copy_filter e f && copyAttemptOk f).length := by
  induction es generalizing st with
  | nil => simp
  | cons wd es ih =>
    rw [List.foldl_cons, ih]
    rw [foldl_copyFile_copied]
    simp [List.filter_append, Nat.add_assoc]

theorem foldl_entries_errors (env : CopyEnv) (e : Bool) (es : List WalkDir) (st : CopyState) :
    (es.foldl (fun s wd => wd.files.foldl (copyFile env e) s) st).errors
      = st.errors
        + (((es.map WalkDir.files).flatten).filter fun f =>
            copy_filter e f && !copyAttemptOk f).length := by
  induction es generalizing st with
  | nil => simp
  | cons wd es ih =>
    rw [List.foldl_cons, ih]
    rw [foldl_copyFile_errors]
    simp [List.filter_append, Nat.add_assoc]

theorem copyFolderPass_copied (env : CopyEnv) (st : CopyState) (sf : SrcFolder) :
    (copyFolderPass env st sf).copied = st.copied + specFolderCopied sf := by
  obtain ⟨p, o, d, w⟩ := sf
  cases w <;>
    simp [copyFolderPass, specFolderCopied, walkFiles, walkOk, walkedEntries,
      foldl_entries_copied]

theorem copyFolderPass_errors (env : CopyEnv) (st : CopyState) (sf : SrcFolder) :
    (copyFolderPass env st sf).errors
      = st.errors + specFolderErrors sf + (if walkOk sf then 0 else 1) := by
  obtain ⟨p, o, d, w⟩ := sf
  cases w <;>
    simp [copyFolderPass, specFolderErrors, walkFiles, walkOk, walkedEntries,
      foldl_entries_errors]

theorem foldl_copyFolderPass_copied (env : CopyEnv) (items : List SrcFolder) (st : CopyState) :
    (items.foldl (copyFolderPass env) st).copied
      = st.copied + (items.map specFolderCopied).sum := by
  induction items generalizing st with
  | nil => simp
  | cons sf items ih => simp [List.foldl_cons, ih, copyFolderPass_copied, Nat.add_assoc]

theorem foldl_copyFolderPass_errors (env : CopyEnv) (items : List SrcFolder) (st : CopyState) :
    (items.foldl (copyFolderPass env) st).errors
      = st.errors + (items.map specFolderErrors).sum
        + (items.map fun sf => if walkOk sf then 0 else 1).sum := by
  induction items generalizing st with
  | nil => simp
  | cons sf items ih =>
    rw [List.foldl_cons, ih, copyFolderPass_errors]
    simp
    omega

/-- When `copy_items_folder` reaches the copy pass, its result is the final
fold state tagged `completed`. -/
theorem copy_items_folder_completed_eq (env : CopyEnv) (items : List SrcFolder)
    (hc : (copy_items_folder env items).status = CopyStatus.completed) :
    copy_items_folder env items
      = ⟨CopyStatus.completed, (items.foldl (copyFolderPass env) {}).copied,
          (items.foldl (copyFolderPass env) {}).errors,
          (items.foldl (copyFolderPass env) {}).events⟩ := by
  unfold copy_items_folder at hc ⊢
  split_ifs at hc ⊢ <;> first | rfl | simp_all

theorem copy_items_file_completed_eq (env : CopyEnv) (files : List FileEntry)
    (hc : (copy_items_file env files).status = CopyStatus.completed) :
    ∃ target,
      copy_items_file env files
        = ⟨CopyStatus.completed,
            (files.foldl (copyListedFileStep target)
              ({ events := [FsEvent.mkdir target] } : CopyState)).copied,
            (files.foldl (copyListedFileStep target)
              ({ events := [FsEvent.mkdir target] } : CopyState)).errors,
            (files.foldl (copyListedFileStep target)
              ({ events := [FsEvent.mkdir target] } : CopyState)).events⟩ := by
  unfold copy_items_file at hc ⊢
  split_ifs at hc ⊢ <;> first | exact ⟨_, rfl⟩ | simp_all

theorem foldl_copyListedFileStep_copied (target : String) (files : List FileEntry)
    (st : CopyState) :
    (files.foldl (copyListedFileStep target) st).copied
      = st.copied + (files.filter fun f => f.copyOk).length := by
  induction files generalizing st with
  | nil => simp
  | cons f fs ih =>
    rw [List.foldl_cons, ih]
    unfold copyListedFileStep
    split <;> simp_all [List.filter_cons] <;> omega

theorem foldl_copyListedFileStep_errors (target : String) (files : List FileEntry)
    (st : CopyState) :
    (files.foldl (copyListedFileStep target) st).errors
      = st.errors + (files.filter fun f => !f.copyOk).length := by
  induction files generalizing st with
  | nil => simp
  | cons f fs ih =>
    rw [List.foldl_cons, ih]
    unfold copyListedFileStep
    split <;> simp_all [List.filter_cons] <;> omega

/-! ## Claim C4 -/

/-- C4 as stated is false: a folder-walk error in the copy pass also increments
the error counter (line 264), so in a run with one walk error and no per-file
copy failure the reported error count is 1 while zero per-file copy attempts
failed. -/
theorem claim_C4_counterexample :
    (copy_items_folder {}
        [⟨"p", "Lab", true, .err [⟨0, [⟨"a.stl", some 5, true, true⟩]⟩]⟩]).errors = 1
    ∧ ([(⟨"p", "Lab", true,
        .err [⟨0, [⟨"a.stl", some 5, true, true⟩]⟩]⟩ : SrcFolder)].map specFolderErrors).sum
      = 0
    ∧ (copy_items_folder {}
        [⟨"p", "Lab", true, .err [⟨0, [⟨"a.stl", some 5, true, true⟩]⟩]⟩]).copied = 1 := by
  decide

/-- C4 (amended): in a copy run that reaches the copy pass (status
`completed`) and whose folder walks raise no error, the reported copied count
is the number of copyable files whose per-file copy attempt succeeded and the
reported error count is exactly the number of per-file copy attempts that
failed — a failing file never aborts the remaining copies, it only increments
the error counter (a folder-walk error would add one more to the counter).
The same holds unconditionally in file mode for the listed files. -/
theorem claim_C4_per_file_error_counting :
    (∀ (env : CopyEnv) (items : List SrcFolder),
      (∀ sf ∈ items, walkOk sf = true) →
      (copy_items_folder env items).status = CopyStatus.completed →
      (copy_items_folder env items).copied = (items.map specFolderCopied).sum
      ∧ (copy_items_folder env items).errors = (items.map specFolderErrors).sum)
    ∧ (∀ (env : CopyEnv) (files : List FileEntry),
      (copy_items_file env files).status = CopyStatus.completed →
      (copy_items_file env files).copied = (files.filter fun f => f.copyOk).length
      ∧ (copy_items_file env files).errors = (files.filter fun f => !f.copyOk).length) := by
  constructor
  · intro env items hw hc
    rw [copy_items_folder_completed_eq env items hc]
    have hpen : (items.map fun sf => if walkOk sf = true then 0 else 1).sum = 0 := by
      apply List.sum_eq_zero
      intro x hx
      obtain ⟨sf, hsf, rfl⟩ := List.mem_map.mp hx
      simp [hw sf hsf]
    constructor
    · simp [foldl_copyFolderPass_copied]
    · simp [foldl_copyFolderPass_errors, hpen]
  · intro env files hc
    obtain ⟨t, ht⟩ := copy_items_file_completed_eq env files hc
    rw [ht]
    exact ⟨by simp [foldl_copyListedFileStep_copied],
           by simp [foldl_copyListedFileStep_errors]⟩

theorem claim_C4_per_file_error_counting_witness :
    (copy_items_folder {}
        [⟨"p", "Lab", true,
          .ok [⟨0, [⟨"a.stl", some 5, true, true⟩, ⟨"b.stl", some 4, true, false⟩]⟩]⟩]).copied
      = ([(⟨"p", "Lab", true,
          .ok [⟨0, [⟨"a.stl", some 5, true, true⟩,
            ⟨"b.stl", some 4, true, false⟩]⟩]⟩ : SrcFolder)].map specFolderCopied).sum
    ∧ (copy_items_folder {}
        [⟨"p", "Lab", true,
          .ok [⟨0, [⟨"a.stl", some 5, true, true⟩, ⟨"b.stl", some 4, true, false⟩]⟩]⟩]).errors
      = ([(⟨"p", "Lab", true,
          .ok [⟨0, [⟨"a.stl", some 5, true, true⟩,
            ⟨"b.stl", some 4, true, false⟩]⟩]⟩ : SrcFolder)].map specFolderErrors).sum :=
  claim_C4_per_file_error_counting.1 {}
    [⟨"p", "Lab", true,
      .ok [⟨0, [⟨"a.stl", some 5, true, true⟩, ⟨"b.stl", some 4, true, false⟩]⟩]⟩]
    (by decide) (by decide)

/-! ## Destination-set algebra for claim C5 -/

theorem mem_insertPair_of_mem (d : List (String × String)) (x y : String × String)
    (h : x ∈ d) : x ∈ insertPair d y := by
  unfold insertPair
  split <;> simp [h]

theorem self_mem_insertPair (d : List (String × String)) (y : String × String) :
    y ∈ insertPair d y := by
  unfold insertPair
  split <;> simp_all

theorem insertPair_eq_of_mem (d : List (String × String)) (y : String × String)
    (h : y ∈ d) : insertPair d y = d := by
  unfold insertPair
  simp [h]

theorem mem_applyFsEvents_of_mem (evs : List FsEvent) (d : List (String × String))
    (x : String × String) (h : x ∈ d) : x ∈ applyFsEvents d evs := by
  induction evs generalizing d with
  | nil => exact h
  | cons e evs ih =>
    cases e with
    | mkdir dir => exact ih d h
    | copy dir n => exact ih _ (mem_insertPair_of_mem d x (dir, n) h)

theorem copyPairs_mem_applyFsEvents (evs : List FsEvent) (d : List (String × String))
    (x : String × String) (h : x ∈ copyPairs evs) : x ∈ applyFsEvents d evs := by
  induction evs generalizing d with
  | nil => simp [copyPairs] at h
  | cons e evs ih =>
    cases e with
    | mkdir dir =>
      simp only [copyPairs, List.filterMap_cons] at h
      exact ih d h
    | copy dir n =>
      simp only [copyPairs, List.filterMap_cons] at h
      rcases List.mem_cons.mp h with hx | hx
      · subst hx
        exact mem_applyFsEvents_of_mem evs _ _ (self_mem_insertPair d (dir, n))
      · exact ih _ hx

theorem copyPairs_mkdir_cons (dir : String) (evs : List FsEvent) :
    copyPairs (FsEvent.mkdir dir :: evs) = copyPairs evs := by
  simp [copyPairs]

theorem copyPairs_copy_cons (dir n : String) (evs : List FsEvent) :
    copyPairs (FsEvent.copy dir n :: evs) = (dir, n) :: copyPairs evs := by
  simp [copyPairs]

theorem applyFsEvents_no_op (evs : List FsEvent) (d : List (String × String))
    (h : ∀ x ∈ copyPairs evs, x ∈ d) : applyFsEvents d evs = d := by
  induction evs generalizing d with
  | nil => rfl
  | cons e evs ih =>
    cases e with
    | mkdir dir =>
      exact ih d fun x hx => h x (by rw [copyPairs_mkdir_cons]; exact hx)
    | copy dir n =>
      have hd : (dir, n) ∈ d := h (dir, n) (by rw [copyPairs_copy_cons]; exact List.mem_cons_self _ _)
      rw [show applyFsEvents d (FsEvent.copy dir n :: evs)
            = applyFsEvents (insertPair d (dir, n)) evs from rfl,
        insertPair_eq_of_mem d (dir, n) hd]
      exact ih d fun x hx => h x (by rw [copyPairs_copy_cons]; exact List.mem_cons_of_mem _ hx)

theorem applyFsEvents_idem (evs : List FsEvent) (d : List (String × String)) :
    applyFsEvents (applyFsEvents d evs) evs = applyFsEvents d evs :=
  applyFsEvents_no_op evs _ fun x hx => copyPairs_mem_applyFsEvents evs d x hx

theorem applyFsEvents_eq_foldl_insertPair (evs : List FsEvent) (d : List (String × String)) :
    applyFsEvents d evs = (copyPairs evs).foldl insertPair d := by
  induction evs generalizing d with
  | nil => rfl
  | cons e evs ih =>
    cases e with
    | mkdir dir => simpa [copyPairs, List.filterMap_cons, applyFsEvents] using ih d
    | copy dir n =>
      simp only [copyPairs, List.filterMap_cons] at ih ⊢
      simpa [applyFsEvents] using ih (insertPair d (dir, n))

theorem foldl_insertPair_length (L : List (String × String)) (d : List (String × String))
    (hnd : L.Nodup) (hdisj : ∀ x ∈ L, x ∉ d) :
    (L.foldl insertPair d).length = d.length + L.length := by
  induction L generalizing d with
  | nil => simp
  | cons y L ih =>
    have hy : y ∉ d := hdisj y (by simp)
    have hins : insertPair d y = d ++ [y] := by
      unfold insertPair
      simp [hy]
    have hL : L.Nodup := (List.nodup_cons.mp hnd).2
    have hdisj2 : ∀ x ∈ L, x ∉ d ++ [y] := by
      intro x hx
      simp only [List.mem_append, List.mem_singleton]
      rintro (hxd | hxy)
      · exact hdisj x (List.mem_cons_of_mem _ hx) hxd
      · subst hxy
        exact (List.nodup_cons.mp hnd).1 hx
    rw [List.foldl_cons, hins, ih (d ++ [y]) hL hdisj2]
    simp
    omega

/-! ## Event-trace lemmas for claim C5 -/

theorem copyFile_pairs_length (env : CopyEnv) (e : Bool) (st : CopyState) (f : FileEntry) :
    (copyPairs (copyFile env e st f).events).length
      = (copyPairs st.events).length
        + (if copy_filter e f && copyAttemptOk f then 1 else 0) := by
  unfold copyFile copy_filter copyAttemptOk
  by_cases h1 : strEndsWith (toLowerStr f.name) ".stl"
  · by_cases h2 : (e && !(EXOCAD_ALLOWED_KEYWORDS.any fun kw => strContains (toLowerStr f.name) kw))
    · simp [h1, h2]
    · by_cases h3 : f.mkdirOk <;> by_cases h4 : f.copyOk <;>
        simp [h1, h2, h3, h4, copyPairs, List.filterMap_append]
  · simp [h1]

theorem copyFile_pairs_snd (env : CopyEnv) (e : Bool) (st : CopyState) (f : FileEntry)
    (hok : copy_filter e f = true → f.mkdirOk = true ∧ f.copyOk = true) :
    ((copyPairs (copyFile env e st f).events).map Prod.snd)
      = ((copyPairs st.events).map Prod.snd)
        ++ (if copy_filter e f then [f.name] else []) := by
  by_cases h1 : strEndsWith (toLowerStr f.name) ".stl"
  · by_cases h2 : (e && !(EXOCAD_ALLOWED_KEYWORDS.any fun kw => strContains (toLowerStr f.name) kw))
    · unfold copyFile copy_filter
      simp [h1, h2]
    · have hcf : copy_filter e f = true := by
        simp [copy_filter, h1, h2]
      obtain ⟨h3, h4⟩ := hok hcf
      unfold copyFile
      simp [h1, h2, h3, h4, hcf, copyPairs, List.filterMap_append]
  · have hcf : copy_filter e f = false := by
      simp [copy_filter, h1]
    unfold copyFile
    simp [h1, hcf]

theorem foldl_copyFile_pairs_length (env : CopyEnv) (e : Bool) (fs : List FileEntry)
    (st : CopyState) :
    (copyPairs ((fs.foldl (copyFile env e) st).events)).length
      = (copyPairs st.events).length
        + (fs.filter fun f => copy_filter e f && copyAttemptOk f).length := by
  induction fs generalizing st with
  | nil => simp
  | cons f fs ih =>
    rw [List.foldl_cons, ih, copyFile_pairs_length, List.filter_cons]
    split <;> simp <;> omega

theorem foldl_copyFile_pairs_snd (env : CopyEnv) (e : Bool) (fs : List FileEntry)
    (st : CopyState)
    (hok : ∀ f ∈ fs, copy_filter e f = true → f.mkdirOk = true ∧ f.copyOk = true) :
    ((copyPairs ((fs.foldl (copyFile env e) st).events)).map Prod.snd)
      = ((copyPairs st.events).map Prod.snd)
        ++ ((fs.filter (copy_filter e)).map FileEntry.name) := by
  induction fs generalizing st with
  | nil => simp
  | cons f fs ih =>
    rw [List.foldl_cons, ih _ fun g hg => hok g (List.mem_cons_of_mem f hg),
      copyFile_pairs_snd env e st f (hok f (List.mem_cons_self f fs)), List.filter_cons]
    split <;> simp

theorem foldl_entries_pairs_length (env : CopyEnv) (e : Bool) (es : List WalkDir)
    (st : CopyState) :
    (copyPairs ((es.foldl (fun s wd => wd.files.foldl (copyFile env e) s) st).events)).length
      = (copyPairs st.events).length
        + (((es.map WalkDir.files).flatten).filter fun f =>
            copy_filter e f && copyAttemptOk f).length := by
  induction es generalizing st with
  | nil => simp
  | cons wd es ih =>
    rw [List.foldl_cons, ih, foldl_copyFile_pairs_length]
    simp [List.filter_append, Nat.add_assoc]

theorem foldl_entries_pairs_snd (env : CopyEnv) (e : Bool) (es : List WalkDir)
    (st : CopyState)
    (hok : ∀ f ∈ (es.map WalkDir.files).flatten,
      copy_filter e f = true → f.mkdirOk = true ∧ f.copyOk = true) :
    ((copyPairs ((es.foldl (fun s wd => wd.files.foldl (copyFile env e) s) st).events)).map
        Prod.snd)
      = ((copyPairs st.events).map Prod.snd)
        ++ ((((es.map WalkDir.files).flatten).filter (copy_filter e)).map FileEntry.name) := by
  induction es generalizing st with
  | nil => simp
  | cons wd es ih =>
    rw [List.foldl_cons]
    rw [ih _ fun g hg => hok g (by simp at hg ⊢; exact Or.inr hg)]
    rw [foldl_copyFile_pairs_snd env e wd.files st
      fun g hg => hok g (by simp; exact Or.inl hg)]
    simp [List.filter_append]

theorem copyFolderPass_events (env : CopyEnv) (st : CopyState) (sf : SrcFolder) :
    (copyFolderPass env st sf).events
      = ((walkedEntries sf).foldl
          (fun s wd => wd.files.foldl (copyFile env (is_exocad_origin sf.origin sf.path)) s)
          st).events := by
  unfold copyFolderPass
  split <;> rfl

theorem copyFolderPass_pairs_length (env : CopyEnv) (st : CopyState) (sf : SrcFolder) :
    (copyPairs (copyFolderPass env st sf).events).length
      = (copyPairs st.events).length + specFolderCopied sf := by
  rw [copyFolderPass_events, foldl_entries_pairs_length]
  rfl

theorem copyFolderPass_pairs_snd (env : CopyEnv) (st : CopyState) (sf : SrcFolder)
    (hok : ∀ f ∈ walkFiles sf,
      copy_filter (is_exocad_origin sf.origin sf.path) f = true →
      f.mkdirOk = true ∧ f.copyOk = true) :
    ((copyPairs (copyFolderPass env st sf).events).map Prod.snd)
      = ((copyPairs st.events).map Prod.snd) ++ copyableNames sf := by
  rw [copyFolderPass_events, foldl_entries_pairs_snd env _ _ st hok]
  rfl

theorem foldl_copyFolderPass_pairs_length (env : CopyEnv) (items : List SrcFolder)
    (st : CopyState) :
    (copyPairs ((items.foldl (copyFolderPass env) st).events)).length
      = (copyPairs st.events).length + (items.map specFolderCopied).sum := by
  induction items generalizing st with
  | nil => simp
  | cons sf items ih =>
    rw [List.foldl_cons, ih, copyFolderPass_pairs_length]
    simp [List.map_cons, List.sum_cons]
    omega

theorem foldl_copyFolderPass_pairs_snd (env : CopyEnv) (items : List SrcFolder)
    (st : CopyState)
    (hok : ∀ sf ∈ items, ∀ f ∈ walkFiles sf,
      copy_filter (is_exocad_origin sf.origin sf.path) f = true →
      f.mkdirOk = true ∧ f.copyOk = true) :
    ((copyPairs ((items.foldl (copyFolderPass env) st).events)).map Prod.snd)
      = ((copyPairs st.events).map Prod.snd) ++ (items.map copyableNames).flatten := by
  induction items generalizing st with
  | nil => simp
  | cons sf items ih =>
    rw [List.foldl_cons]
    rw [ih _ fun s hs => hok s (List.mem_cons_of_mem sf hs)]
    rw [copyFolderPass_pairs_snd env st sf (hok sf (List.mem_cons_self sf items))]
    simp

/-! ## Claim C5 -/

/-- C5: copying the same source set twice to the same destination in direct
mode is idempotent at the destination.  Copy events write under the original
basename and a collision silently overwrites (an already-present
(directory, name) pair is left as-is, never duplicated); replaying the event
trace of a run over its own result changes nothing; and for a completed run
whose copyable files all copy successfully and have pairwise-distinct
basenames, the number of destination files equals the number of files copied
(the source count), not double. -/
theorem claim_C5_idempotent_overwrite :
    (∀ (env : CopyEnv) (items : List SrcFolder) (dest : List (String × String)),
      applyFsEvents (applyFsEvents dest (copy_items_folder env items).events)
          (copy_items_folder env items).events
        = applyFsEvents dest (copy_items_folder env items).events)
    ∧ (∀ (dir n : String) (dest : List (String × String)), (dir, n) ∈ dest →
        applyFsEvents dest [FsEvent.copy dir n] = dest)
    ∧ (∀ (env : CopyEnv) (items : List SrcFolder),
        env.model_copy_mode = "Directly into Base" →
        env.tissue_copy_mode = "Directly into Base" →
        (∀ sf ∈ items, walkOk sf = true) →
        (∀ sf ∈ items, ∀ f ∈ walkFiles sf,
          copy_filter (is_exocad_origin sf.origin sf.path) f = true →
          f.mkdirOk = true ∧ f.copyOk = true) →
        ((items.map copyableNames).flatten).Nodup →
        (copy_items_folder env items).status = CopyStatus.completed →
        (applyFsEvents [] (copy_items_folder env items).events).length
          = (copy_items_folder env items).copied) := by
  refine ⟨?_, ?_, ?_⟩
  · intro env items dest
    exact applyFsEvents_idem _ _
  · intro dir n dest h
    exact insertPair_eq_of_mem dest (dir, n) h
  · intro env items hm ht hw hok hnd hc
    rw [copy_items_folder_completed_eq env items hc]
    dsimp only
    have hsnd := foldl_copyFolderPass_pairs_snd env items {} hok
    simp only [List.nil_append] at hsnd
    have hnodup_pairs :
        (copyPairs ((items.foldl (copyFolderPass env) {}).events)).Nodup := by
      apply List.Nodup.of_map Prod.snd
      rw [hsnd]
      simpa using hnd
    rw [applyFsEvents_eq_foldl_insertPair,
      foldl_insertPair_length _ [] hnodup_pairs (by intro x hx; simp),
      foldl_copyFolderPass_pairs_length env items {},
      foldl_copyFolderPass_copied]
    simp [copyPairs]

theorem claim_C5_idempotent_overwrite_witness :
    (applyFsEvents []
        (copy_items_folder {}
          [⟨"p", "Lab", true,
            .ok [⟨0, [⟨"a.stl", some 5, true, true⟩, ⟨"b.stl", some 4, true, true⟩]⟩]⟩]).events).length
      = (copy_items_folder {}
          [⟨"p", "Lab", true,
            .ok [⟨0, [⟨"a.stl", some 5, true, true⟩, ⟨"b.stl", some 4, true, true⟩]⟩]⟩]).copied :=
  claim_C5_idempotent_overwrite.2.2 {}
    [⟨"p", "Lab", true,
      .ok [⟨0, [⟨"a.stl", some 5, true, true⟩, ⟨"b.stl", some 4, true, true⟩]⟩]⟩]
    rfl rfl (by decide) (by decide) (by decide) (by decide)
